import Mathlib

/-!
Verification of the query-and-present pipeline of the OpenRouter models
browser (src/ormodels.py).  The Python script is shallowly embedded:

* a fetched model record becomes the structure `Model` (the fields the
  program reads, each optional, mirroring `dict.get` with a default);
* `search_models`, the dedup loop of `main`, and the render paths become
  pure Lean functions, with Python dict mutation made explicit as state
  passing;
* the scalar formatters are additionally embedded over `PyVal`, a model
  of the loosely typed values the API may deliver, with Python exceptions
  made explicit in `Except PyErr`; numeric strings are evaluated in exact
  decimal arithmetic (the fraction type `PRat`), with IEEE overflow to
  infinity modelled by the `2^1024` magnitude threshold.
-/

/-- Python `str.lower`, restricted to ASCII case mapping (the id, name and
modality fields exercised by the tool are ASCII). -/
def py_lower (s : String) : String := String.mk (s.data.map Char.toLower)

/-- The ASCII part of Python's whitespace class, as used by `str.strip`
and by the regex class in `format_description`. -/
def py_isspace (c : Char) : Bool :=
  c = ' ' || c = '\t' || c = '\n' || c = '\r' || c = '\x0b' || c = '\x0c'

/-- Python `str.strip()`. -/
def py_strip (s : String) : String :=
  String.mk (((s.data.dropWhile py_isspace).reverse.dropWhile py_isspace).reverse)

/-- The needle is an initial segment of the haystack. -/
def leadsWith : List Char → List Char → Bool
  | [], _ => true
  | _ :: _, [] => false
  | a :: as, b :: bs => a = b && leadsWith as bs

/-- The needle occurs contiguously somewhere in the haystack. -/
def occursIn (needle : List Char) : List Char → Bool
  | [] => leadsWith needle []
  | c :: rest => leadsWith needle (c :: rest) || occursIn needle rest

/-- Python substring test `needle in hay` on strings. -/
def py_in (needle hay : String) : Bool := occursIn needle.data hay.data

/-- One fetched model record: the fields src/ormodels.py reads, each
optional exactly as `dict.get` treats them.  `modality` and `tokenizer`
stand for `architecture.modality` / `architecture.tokenizer`,
`prompt_price` / `completion_price` for `pricing.prompt` /
`pricing.completion`, `max_completion_tokens` for
`top_provider.max_completion_tokens`.  `rest` carries the remaining
open-ended fields (display only). -/
structure Model where
  id : Option String := none
  name : Option String := none
  modality : Option String := none
  tokenizer : Option String := none
  description : Option String := none
  canonical_slug : Option String := none
  hugging_face_id : Option String := none
  created : Option Int := none
  context_length : Option Int := none
  prompt_price : Option String := none
  completion_price : Option String := none
  max_completion_tokens : Option Int := none
  rest : List (String × String) := []
deriving DecidableEq, Repr

/-- `search_models` of src/ormodels.py: case-insensitive substring search
across the id, name and modality fields, a missing field read as `""`.
The Python loop appends matches in input order, i.e. a stable filter. -/
def search_models (models : List Model) (query : String) : List Model :=
  let query_lower := py_lower query
  models.filter (fun m =>
    py_in query_lower (py_lower (m.id.getD "")) ||
    py_in query_lower (py_lower (m.name.getD "")) ||
    py_in query_lower (py_lower (m.modality.getD "")))

/-- One step of the dedup loop in `main`: skip a record whose id is in
`seen_ids`, otherwise record the id and append the record. -/
def collect_step (st : List (Option String) × List Model) (m : Model) :
    List (Option String) × List Model :=
  if m.id ∈ st.1 then st else (m.id :: st.1, st.2 ++ [m])

/-- The match-collection loop of `main`: run `search_models` per query and
accumulate results, deduplicated by `id` via the `seen_ids` set. -/
def collect_matches (models : List Model) (queries : List String) : List Model :=
  (queries.foldl (fun st q => (search_models models q).foldl collect_step st)
    ([], [])).2

/-- First-occurrence deduplication by `id`, stated independently of the
accumulator loop: keep the head, drop every later record with the same id. -/
def dedup_by_id : List Model → List Model
  | [] => []
  | m :: l => m :: dedup_by_id (l.filter (fun x => decide (x.id ≠ m.id)))
termination_by l => l.length
decreasing_by
  simp only [List.length_cons]
  have := List.length_filter_le (fun x => decide (x.id ≠ m.id)) l
  omega

/-- The sentence splitter of `format_description`: the regex split on a
period followed by whitespace (the pattern's second alternative, a bare
newline, is already covered by the greedy whitespace class).  A boundary
consumes the period and the maximal following whitespace run, matching
`re.split` semantics.  `fuel` is a structural-recursion bound; every step
consumes fuel, and the wrapper supplies more fuel than steps possible, so
the fuel-exhaustion arm is unreachable. -/
def split_go (fuel : Nat) (skipping : Bool) (acc : List Char) (cs : List Char) :
    List (List Char) :=
  match fuel with
  | 0 => [acc.reverse ++ cs]
  | f + 1 =>
    if skipping then
      match cs with
      | [] => [[]]
      | c :: rest =>
        if py_isspace c then split_go f true [] rest
        else split_go f false [] (c :: rest)
    else
      match cs with
      | [] => [acc.reverse]
      | '.' :: c :: rest2 =>
        if py_isspace c then acc.reverse :: split_go f true [] rest2
        else split_go f false ('.' :: acc) (c :: rest2)
      | ['.'] => [('.' :: acc).reverse]
      | c :: rest => split_go f false (c :: acc) rest

/-- `re.split` on a period followed by whitespace, as strings. -/
def re_split_dot_ws (s : String) : List String :=
  (split_go (2 * s.data.length + 2) false [] s.data).map (fun l => String.mk l)

/-- Python `s.endswith(('.', '!', '?'))`. -/
def ends_with_punct (s : String) : Bool :=
  match s.data.reverse with
  | c :: _ => c = '.' || c = '!' || c = '?'
  | [] => false

/-- The per-sentence pass of `format_description`: strip each piece, drop
empty pieces, restore a period on a sentence lacking closing punctuation,
and indent by two spaces. -/
def desc_lines (desc : String) : List String :=
  (re_split_dot_ws (py_strip desc)).filterMap (fun s =>
    let s2 := py_strip s
    if s2 = "" then none
    else some ("  " ++ (if ends_with_punct s2 then s2 else s2 ++ ".")))

/-- `format_description` of src/ormodels.py.  The empty string also covers
a `None` description (both are falsy in the source). -/
def format_description (desc : String) : String :=
  if desc = "" then "  (no description)"
  else String.intercalate "\n" (desc_lines desc)

/-- The prominent keys of the detailed view, in source order. -/
def prominent_keys : List String :=
  ["name", "id", "canonical_slug", "hugging_face_id", "created", "context_length"]

/-- `max(len(k) for k in prominent)` in the source. -/
def max_key_len : Nat := (prominent_keys.map String.length).foldl Nat.max 0

def spaces (n : Nat) : String := String.mk (List.replicate n ' ')

/-- How a popped prominent string value is displayed: `""` is shown quoted
and a missing / `None` value as `null`; otherwise verbatim. -/
def render_val_str : Option String → String
  | none => "null"
  | some "" => "\x22\x22"
  | some s => s

/-- How a popped prominent integer value is displayed. -/
def render_val_int : Option Int → String
  | none => "null"
  | some n => toString n

/-- One aligned `key:  value` line of the prominent block. -/
def prom_line (key value : String) : String :=
  key ++ ":" ++ spaces (max_key_len - key.length) ++ "  " ++ value

def opt_kv (k : String) : Option String → List String
  | none => []
  | some v => [k ++ ": " ++ v]

/-- Modelled from the spec: the source hands the record's remaining fields
to the external YAML emitter (`yaml.dump`, insertion order preserved);
the spec describes the output only as structured human-readable key-value
text, so a plain deterministic key-value rendering stands in for it. -/
def yaml_dump_rest (m : Model) : String :=
  let archLines := opt_kv "modality" m.modality ++ opt_kv "tokenizer" m.tokenizer
  let arch := if archLines = [] then [] else
    "architecture:" :: archLines.map (fun l => "  " ++ l)
  let priceLines := opt_kv "prompt" m.prompt_price ++
    opt_kv "completion" m.completion_price
  let pricing := if priceLines = [] then [] else
    "pricing:" :: priceLines.map (fun l => "  " ++ l)
  let tp := match m.max_completion_tokens with
    | none => []
    | some n => ["top_provider:", "  max_completion_tokens: " ++ toString n]
  let restLines := m.rest.map (fun kv => kv.1 ++ ": " ++ kv.2)
  String.intercalate "\n" (arch ++ pricing ++ tp ++ restLines)

/-- `print_full_model` of src/ormodels.py with Python dict mutation made
explicit: the source first rebinds `model = model.copy()` and every
subsequent `pop` acts on that copy (here: the states `m0`…`m7`), so the
caller's record is handed back unchanged as the second component.  The
first component lists the payloads of the source's `print` calls in
order. -/
def print_full_model_run (model : Model) : List String × Model :=
  let m0 := model
  let desc := m0.description.getD ""
  let m1 := { m0 with description := none }
  let line_desc := "\ndescription:\n" ++ format_description desc ++ "\n"
  let l_name := prom_line "name" (render_val_str m1.name)
  let m2 := { m1 with name := none }
  let l_id := prom_line "id" (render_val_str m2.id)
  let m3 := { m2 with id := none }
  let l_slug := prom_line "canonical_slug" (render_val_str m3.canonical_slug)
  let m4 := { m3 with canonical_slug := none }
  let l_hf := prom_line "hugging_face_id" (render_val_str m4.hugging_face_id)
  let m5 := { m4 with hugging_face_id := none }
  let l_created := prom_line "created" (render_val_int m5.created)
  let m6 := { m5 with created := none }
  let l_ctx := prom_line "context_length" (render_val_int m6.context_length)
  let m7 := { m6 with context_length := none }
  ([line_desc, l_name, l_id, l_slug, l_hf, l_created, l_ctx, "",
    yaml_dump_rest m7, ""], model)

/-- The nine table headers of the comparison table, in source order. -/
def TABLE_HEADERS : List String :=
  ["ID", "NAME", "CREATED", "CONTEXT_LENGTH", "MODALITY", "TOKENIZER",
   "PROMPT", "COMPLETION", "MAX_COMPL_TOKENS"]

/-- Integer power by repeated squaring, fuelled so that reduction depth is
logarithmic in the exponent (the kernel evaluates this on 1024-bit range
constants; the plain structural power would recurse once per unit of the
exponent). -/
def pow_fuel (fuel : Nat) (b : Int) (n : Nat) : Int :=
  match fuel with
  | 0 => 1
  | f + 1 =>
    if n = 0 then 1
    else
      let h := pow_fuel f b (n / 2)
      if n % 2 = 0 then h * h else h * h * b

def ipow (b : Int) (n : Nat) : Int := pow_fuel (n + 1) b n

/-- Proleptic-Gregorian civil date from days since 1970-01-01
(the standard era-based algorithm, in floor arithmetic). -/
def civil_from_days (z0 : Int) : Int × Int × Int :=
  let z := z0 + 719468
  let era := Int.fdiv z 146097
  let doe := z - era * 146097
  let yoe := Int.fdiv
    (doe - Int.fdiv doe 1460 + Int.fdiv doe 36524 - Int.fdiv doe 146096) 365
  let y := yoe + era * 400
  let doy := doe - (365 * yoe + Int.fdiv yoe 4 - Int.fdiv yoe 100)
  let mp := Int.fdiv (5 * doy + 2) 153
  let d := doy - Int.fdiv (153 * mp + 2) 5 + 1
  let mo := mp + (if mp < 10 then 3 else -9)
  (y + (if mo ≤ 2 then 1 else 0), mo, d)

def pad2 (n : Int) : String := if n < 10 then "0" ++ toString n else toString n

def pad4 (y : Int) : String :=
  if y < 10 then "000" ++ toString y
  else if y < 100 then "00" ++ toString y
  else if y < 1000 then "0" ++ toString y
  else toString y

/-- The errors Python can raise in the formatters' bodies. -/
inductive PyErr
  | valueError
  | typeError
  | osError
  | overflowError
deriving DecidableEq, Repr

/-- `datetime.fromtimestamp(t).strftime` for an integer timestamp: an
integer outside the platform `time_t` range raises `OverflowError`; a
timestamp whose civil year falls outside `datetime`'s 1..9999 range raises
`ValueError`.  The local-time zone offset is taken as zero; no claim here
depends on the specific calendar day rendered. -/
def ts_core (t : Int) : Except PyErr String :=
  if t < -(ipow 2 63) ∨ ipow 2 63 ≤ t then .error .overflowError
  else
    let c := civil_from_days (Int.fdiv t 86400)
    if c.1 < 1 ∨ 9999 < c.1 then .error .valueError
    else .ok (pad4 c.1 ++ "-" ++ pad2 c.2.1 ++ "-" ++ pad2 c.2.2)

/-- Leading decimal digits of a character list, and the remainder. -/
def takeDigits : List Char → List Char × List Char
  | [] => ([], [])
  | c :: rest =>
    if c.isDigit then
      let p := takeDigits rest
      (c :: p.1, p.2)
    else ([], c :: rest)

/-- Numeric value of a digit list (most significant first). -/
def digitsToNat (ds : List Char) : Nat :=
  ds.foldl (fun a c => a * 10 + (c.toNat - '0'.toNat)) 0

/-- An exact rational carried as a normalized numerator / positive
denominator pair.  (Mathlib rational arithmetic does not reduce inside the
kernel, so the formatter pipeline carries its own fraction type; the values
are the same exact decimal readings.) -/
structure PRat where
  num : Int
  den : Nat
deriving DecidableEq, Repr

/-- Normalized fraction constructor: divide out the gcd.  A zero
denominator cannot arise from the uses below but maps to zero for
totality. -/
def pr_norm (n : Int) (d : Nat) : PRat :=
  let g := Nat.gcd n.natAbs d
  if g = 0 then ⟨0, 1⟩ else ⟨n / (g : Int), d / g⟩

def pr (n : Int) (d : Nat) : PRat := pr_norm n d

def pr_mul (a b : PRat) : PRat := pr_norm (a.num * b.num) (a.den * b.den)

def pr_neg (a : PRat) : PRat := ⟨-a.num, a.den⟩

/-- Order by cross multiplication (denominators are positive). -/
def pr_le (a b : PRat) : Bool := a.num * (b.den : Int) ≤ b.num * (a.den : Int)

def pr_lt (a b : PRat) : Bool := a.num * (b.den : Int) < b.num * (a.den : Int)

/-- Multiplication by a power of ten (the exponent of a literal). -/
def pr_mul_pow10 (x : PRat) (e : Int) : PRat :=
  if 0 ≤ e then pr_norm (x.num * ipow 10 e.toNat) x.den
  else pr_norm x.num (x.den * (ipow 10 (-e).toNat).toNat)

def pr_floor (a : PRat) : Int := Int.fdiv a.num (a.den : Int)

/-- Truncation toward zero, as Python `int()` applies to a float. -/
def pr_trunc (a : PRat) : Int := a.num / (a.den : Int)

/-- The double-overflow threshold `2^1024`. -/
def dbl_max : PRat := ⟨ipow 2 1024, 1⟩

/-- The decimal / scientific literal grammar accepted by Python's `float`
constructor after sign stripping: `digits [. digits] [e [sign] digits]`
with at least one mantissa digit, evaluated exactly.  (Underscore digit
grouping, a rarely used literal extension, is not modelled.) -/
def parse_decimal (cs : List Char) : Option PRat :=
  let p1 := takeDigits cs
  let p2 := match p1.2 with
    | '.' :: r => takeDigits r
    | _ => ([], p1.2)
  if p1.1 = [] ∧ p2.1 = [] then none
  else
    let mant : PRat := pr_norm (digitsToNat (p1.1 ++ p2.1) : Int) (ipow 10 p2.1.length).toNat
    match p2.2 with
    | [] => some mant
    | 'e' :: r =>
      let sp : Int × List Char := match r with
        | '+' :: rr => (1, rr)
        | '-' :: rr => (-1, rr)
        | rr => (1, rr)
      let p3 := takeDigits sp.2
      if p3.1 = [] ∨ p3.2 ≠ [] then none
      else some (pr_mul_pow10 mant (sp.1 * (digitsToNat p3.1 : Int)))
    | _ => none

/-- A Python float value: a finite value carried exactly as a rational
(the decimal reading of the literal; binary rounding error is far below
the two-decimal display precision used here), or one of the IEEE specials. -/
inductive PyFloat
  | finite (q : PRat)
  | inf
  | ninf
  | nan
deriving DecidableEq, Repr

/-- `float(s)` for a string: strip, case-fold, optional sign, then the
`inf` / `infinity` / `nan` words or a decimal literal; a literal whose
magnitude reaches `2^1024` overflows to infinity (C `strtod` semantics, no
exception).  Anything else raises `ValueError`. -/
def parse_float_core (neg : Bool) (cs : List Char) : Except PyErr PyFloat :=
  if cs = ['i', 'n', 'f'] ∨ cs = ['i', 'n', 'f', 'i', 'n', 'i', 't', 'y'] then
    .ok (if neg then .ninf else .inf)
  else if cs = ['n', 'a', 'n'] then .ok .nan
  else match parse_decimal cs with
    | none => .error .valueError
    | some q =>
      if pr_le dbl_max q then .ok (if neg then .ninf else .inf)
      else .ok (.finite (if neg then pr_neg q else q))

def parse_float (s : String) : Except PyErr PyFloat :=
  match (py_strip s).data.map Char.toLower with
  | '+' :: rest => parse_float_core false rest
  | '-' :: rest => parse_float_core true rest
  | rest => parse_float_core false rest

/-- A value as the loosely typed API payload may deliver it to a formatter.
Containers (lists / nested dicts) are omitted: under `float()` / `int()`
they raise `TypeError`, which the formatters catch exactly as for `None`. -/
inductive PyVal
  | vNone
  | vBool (b : Bool)
  | vInt (n : Int)
  | vFloat (x : PyFloat)
  | vStr (s : String)
deriving DecidableEq, Repr

/-- Python truthiness of a scalar (`if not value`). -/
def py_falsy : PyVal → Bool
  | .vNone => true
  | .vBool b => !b
  | .vInt n => n == 0
  | .vFloat x => x == .finite ⟨0, 1⟩
  | .vStr s => s == ""

/-- `float(value)`: an integer too large for a double raises
`OverflowError`; `None` raises `TypeError`; strings go through the literal
grammar. -/
def py_float : PyVal → Except PyErr PyFloat
  | .vNone => .error .typeError
  | .vBool b => .ok (.finite (if b then ⟨1, 1⟩ else ⟨0, 1⟩))
  | .vInt n =>
    if ipow 2 1024 ≤ (n.natAbs : Int) then .error .overflowError
    else .ok (.finite ⟨n, 1⟩)
  | .vFloat x => .ok x
  | .vStr s => parse_float s

/-- `int(value)`: a float is truncated toward zero; `nan` raises
`ValueError` and an infinity raises `OverflowError`; a string must be a
pure optionally signed digit run; `None` raises `TypeError`. -/
def parse_int_str (s : String) : Except PyErr Int :=
  let p : Bool × List Char := match (py_strip s).data with
    | '+' :: r => (false, r)
    | '-' :: r => (true, r)
    | r => (false, r)
  if p.2 ≠ [] ∧ p.2.all Char.isDigit then
    .ok (if p.1 then -(digitsToNat p.2 : Int) else (digitsToNat p.2 : Int))
  else .error .valueError

def py_int : PyVal → Except PyErr Int
  | .vNone => .error .typeError
  | .vBool b => .ok (if b then 1 else 0)
  | .vInt n => .ok n
  | .vFloat (.finite q) => .ok (pr_trunc q)
  | .vFloat .nan => .error .valueError
  | .vFloat .inf => .error .overflowError
  | .vFloat .ninf => .error .overflowError
  | .vStr s => parse_int_str s

/-- Round half to even, the rounding used by `%.2f` style formatting. -/
def roundHalfEven (q : PRat) : Int :=
  let f := pr_floor q
  let rnum := q.num - f * (q.den : Int)
  if 2 * rnum < (q.den : Int) then f
  else if (q.den : Int) < 2 * rnum then f + 1
  else if f % 2 = 0 then f else f + 1

/-- Python `f"{x:.2f}"` for a finite value: sign, integer digits, a point,
and exactly two fraction digits. -/
def py_fix2 (q : PRat) : String :=
  let n := roundHalfEven (pr_mul q (pr 100 1))
  let sgn := if n < 0 then "-" else ""
  let a := n.natAbs
  sgn ++ toString (a / 100) ++ "." ++
    String.mk [Nat.digitChar (a % 100 / 10), Nat.digitChar (a % 10)]

/-- Python `f"{x:.2f}"` on any float: the specials render as the words
`inf` / `-inf` / `nan`, without any decimal places. -/
def py_fix2_float : PyFloat → String
  | .finite q => py_fix2 q
  | .inf => "inf"
  | .ninf => "-inf"
  | .nan => "nan"

/-- Multiplication of a float by a positive rational scale, overflowing to
infinity at the double range boundary. -/
def pyf_scale (x : PyFloat) (scale : PRat) : PyFloat :=
  match x with
  | .finite q =>
    let r := pr_mul q scale
    if pr_le dbl_max r then .inf
    else if pr_le r (pr_neg dbl_max) then .ninf
    else .finite r
  | .inf =>
    if pr_lt (pr 0 1) scale then .inf
    else if pr_lt scale (pr 0 1) then .ninf else .nan
  | .ninf =>
    if pr_lt (pr 0 1) scale then .ninf
    else if pr_lt scale (pr 0 1) then .inf else .nan
  | .nan => .nan

/-- Modelled from the spec: the price formatter rescales a per-token price
by a configurable factor (the repository's variants use 1,000,000 and
100,000,000; src/ormodels.py hard-codes the former, see
`format_price_dollars`).  Body as in the source: falsy input gives the
sentinel, `float()` conversion errors of kind `ValueError` / `TypeError`
are caught and give the sentinel, any other error (`OverflowError` on a
huge integer) escapes, and a successful conversion is scaled and rendered
as `$` plus the two-decimal rendering. -/
def format_price_scaled (scale : PRat) (v : PyVal) : Except PyErr String :=
  if py_falsy v then .ok "N/A"
  else match py_float v with
    | .error .valueError => .ok "N/A"
    | .error .typeError => .ok "N/A"
    | .error e => .error e
    | .ok x => .ok ("$" ++ py_fix2_float (pyf_scale x scale))

/-- `format_price_dollars` of src/ormodels.py: the 1,000,000 scale. -/
def format_price_dollars (v : PyVal) : Except PyErr String :=
  format_price_scaled (pr 1000000 1) v

/-- `format_timestamp` of src/ormodels.py: falsy input gives the sentinel;
the `except` clause catches `ValueError`, `TypeError` and `OSError` but
not `OverflowError`, which therefore escapes. -/
def fromtimestamp_ymd : PyVal → Except PyErr String
  | .vNone => .error .typeError
  | .vBool b => ts_core (if b then 1 else 0)
  | .vInt t => ts_core t
  | .vFloat (.finite q) => ts_core (pr_floor q)
  | .vFloat .nan => .error .valueError
  | .vFloat .inf => .error .overflowError
  | .vFloat .ninf => .error .overflowError
  | .vStr _ => .error .typeError

def format_timestamp (v : PyVal) : Except PyErr String :=
  if py_falsy v then .ok "N/A"
  else match fromtimestamp_ymd v with
    | .ok s => .ok s
    | .error .valueError => .ok "N/A"
    | .error .typeError => .ok "N/A"
    | .error .osError => .ok "N/A"
    | .error e => .error e

/-- `format_tokens` of src/ormodels.py: falsy input gives the sentinel;
`int()` conversion errors of kind `ValueError` / `TypeError` are caught,
while the `OverflowError` raised by `int()` on an infinite float escapes. -/
def format_tokens (v : PyVal) : Except PyErr String :=
  if py_falsy v then .ok "N/A"
  else match py_int v with
    | .error .valueError => .ok "N/A"
    | .error .typeError => .ok "N/A"
    | .error e => .error e
    | .ok n => .ok (toString n ++ " | " ++ toString (Int.fdiv n 1000) ++ "k")

/-- A typed field handed back to a formatter as the Python value
`dict.get` returns: the value itself, or `None` when missing. -/
def pyv_of_opt_int : Option Int → PyVal
  | none => .vNone
  | some n => .vInt n

def pyv_of_opt_str : Option String → PyVal
  | none => .vNone
  | some s => .vStr s

/-- The timestamp cell: exactly `format_timestamp(model.get("created"))`,
so an out-of-`time_t` value lets `OverflowError` escape (the C6 bug)
rather than yielding the sentinel. -/
def fmt_created_cell (t : Option Int) : Except PyErr String :=
  format_timestamp (pyv_of_opt_int t)

/-- A token-count cell: exactly `format_tokens` on the optional field. -/
def fmt_tokens_cell (t : Option Int) : Except PyErr String :=
  format_tokens (pyv_of_opt_int t)

/-- A price cell: exactly `format_price_dollars(pricing.get(...))`.  On
string input `float()` raises only `ValueError`, which the source catches,
so on string-or-missing pricing fields this never errs. -/
def format_price_cell (p : Option String) : Except PyErr String :=
  format_price_dollars (pyv_of_opt_str p)

/-- `build_table_row` of src/ormodels.py: the nine cells of one record,
the fallible formatter cells evaluated in the source's left-to-right
order; the first escaping exception aborts the row. -/
def build_table_row (m : Model) : Except PyErr (List String) := do
  let created ← fmt_created_cell m.created
  let ctx ← fmt_tokens_cell m.context_length
  let prompt ← format_price_cell m.prompt_price
  let completion ← format_price_cell m.completion_price
  let maxc ← fmt_tokens_cell m.max_completion_tokens
  pure [m.id.getD "N/A",
    m.name.getD "N/A",
    created,
    ctx,
    m.modality.getD "N/A",
    m.tokenizer.getD "N/A",
    prompt,
    completion,
    maxc]

/-- Modelled from the spec: the external `tabulate` library renders an
aligned plain-text table with a header row; a plain deterministic joining
of header and rows stands in for its alignment mechanics. -/
def render_table (rows : List (List String)) : String :=
  String.intercalate "\n"
    ((TABLE_HEADERS :: rows).map (fun r => String.intercalate "  " r))

/-- `print_comparison_table` of src/ormodels.py: one row per record, in
order, under the nine-column header; an exception escaping a cell
formatter aborts the rendering. -/
def print_comparison_table (models : List Model) : Except PyErr String :=
  match models.mapM build_table_row with
  | .ok rows => .ok (render_table rows)
  | .error e => .error e

/-- `", ".join(f"'{q}'" for q in queries)` in `main`. -/
def quote_join (qs : List String) : String :=
  String.intercalate ", " (qs.map (fun q => "'" ++ q ++ "'"))

def err_no_query : String := "Error: No search query provided."

def no_match_msg (qs : List String) : String :=
  "No models found matching " ++ quote_join qs

def found_msg (n : Nat) (qs : List String) : String :=
  "Found " ++ toString n ++ " model(s) matching " ++ quote_join qs ++ ":\n"

/-- Observable outcome of one run of `main`: exit code, the payloads of
the `print` calls to standard output and to the error stream, and whether
`fetch_models` was invoked. -/
structure ProgResult where
  exitCode : Nat
  stdoutLines : List String
  stderrLines : List String
  fetchCalled : Bool
deriving DecidableEq, Repr

/-- An exception escaping to the interpreter: Python prints a traceback
naming the exception to the error stream and the process exits with
code 1. -/
def uncaught_msg (e : PyErr) : String :=
  "Traceback: uncaught " ++ (match e with
    | .valueError => "ValueError"
    | .typeError => "TypeError"
    | .osError => "OSError"
    | .overflowError => "OverflowError")

/-- The multi-query fall-through of `main`: collect the deduplicated
matches of all queries; an empty result exits 1 with the message naming
every query, otherwise the count summary is printed and the comparison
table follows — unless a cell formatter lets an exception escape (the C6
bug), in which case the run dies after the summary with the traceback on
the error stream. -/
def multi_query (models : List Model) (qs : List String) : ProgResult :=
  let all := collect_matches models qs
  if all = [] then ⟨1, [], [no_match_msg qs], true⟩
  else match print_comparison_table all with
    | .ok table => ⟨0, [found_msg all.length qs, table], [], true⟩
    | .error e => ⟨1, [found_msg all.length qs], [uncaught_msg e], true⟩

/-- `main` of src/ormodels.py as a function of the parsed positional
queries and of the fetch outcome.  No query: error exit before any fetch
(`fetchCalled = false`).  A fetch failure exits 1 with its message
(`fetch_models` itself prints and exits; the message is threaded through).
A single query is first probed for an exact `id` match, which renders the
detailed view and returns (exit 0); otherwise, and always with two or more
queries, the multi-query search runs. -/
def main_run (args : List String) (fetched : Except String (List Model)) :
    ProgResult :=
  match args, fetched with
  | [], _ => ⟨1, [], [err_no_query], false⟩
  | _ :: _, .error msg => ⟨1, [], [msg], true⟩
  | [q], .ok models =>
    match models.find? (fun m => m.id == some q) with
    | some m => ⟨0, (print_full_model_run m).1, [], true⟩
    | none => multi_query models [q]
  | a :: b :: rest, .ok models => multi_query models (a :: b :: rest)

deriving instance DecidableEq for Except

/-- Shape check for a successfully formatted price: a currency-symbol
first character and exactly two digits after the final point. -/
def two_dec_tail : List Char → Bool
  | d2 :: d1 :: c :: _ => c = '.' && d1.isDigit && d2.isDigit
  | _ => false

def is_two_dec (s : String) : Bool :=
  match s.data with
  | [] => false
  | c :: rest => c = '$' && two_dec_tail rest.reverse

/-- The empty needle occurs in every haystack. -/
theorem occursIn_nil (hay : List Char) : occursIn [] hay = true := by
  cases hay <;> simp [occursIn, leadsWith]

/-- Every digit below ten renders as a digit character. -/
theorem digitChar_isDigit : ∀ d : Nat, d < 10 → (Nat.digitChar d).isDigit = true := by
  decide


/-- Reversing the character data of a two-decimal tail. -/
theorem rev_shape (t : String) (c1 c2 : Char) :
    ((t ++ "." ++ String.mk [c1, c2]).data).reverse = c2 :: c1 :: '.' :: t.data.reverse := by
  show ((t.data ++ ['.']) ++ [c1, c2]).reverse = _
  simp

/-- Any string of the form dollar sign, text, point, two digit characters
passes the two-decimal shape check. -/
theorem is_two_dec_shape (t : String) (c1 c2 : Char)
    (h1 : c1.isDigit = true) (h2 : c2.isDigit = true) :
    is_two_dec ("$" ++ (t ++ "." ++ String.mk [c1, c2])) = true := by
  show ((('$' : Char) = '$') && two_dec_tail ((t ++ "." ++ String.mk [c1, c2]).data).reverse) = true
  rw [rev_shape]
  simp [two_dec_tail, h1, h2]

/-- A finite two-decimal rendering always has the checked shape. -/
theorem is_two_dec_fix2 (q : PRat) : is_two_dec ("$" ++ py_fix2 q) = true := by
  have h1 : (roundHalfEven (pr_mul q (pr 100 1))).natAbs % 100 / 10 < 10 := by omega
  have h2 : (roundHalfEven (pr_mul q (pr 100 1))).natAbs % 10 < 10 := by omega
  exact is_two_dec_shape _ _ _ (digitChar_isDigit _ h1) (digitChar_isDigit _ h2)

theorem collect_foldl_fusion (f : String → List Model) (qs : List String)
    (st : List (Option String) × List Model) :
    qs.foldl (fun st q => (f q).foldl collect_step st) st =
      (qs.flatMap f).foldl collect_step st := by
  induction qs generalizing st with
  | nil => rfl
  | cons q qs ih => simp [List.foldl_append, ih]

theorem collect_foldl_dedup (l : List Model) (seen : List (Option String))
    (acc : List Model) :
    (l.foldl collect_step (seen, acc)).2 =
      acc ++ dedup_by_id (l.filter (fun m => decide (m.id ∉ seen))) := by
  induction l generalizing seen acc with
  | nil => simp [dedup_by_id]
  | cons m l ih =>
    by_cases h : m.id ∈ seen
    · have e1 : collect_step (seen, acc) m = (seen, acc) := by
        simp [collect_step, h]
      rw [List.foldl_cons, e1, ih, List.filter_cons_of_neg (by simp [h])]
    · have e1 : collect_step (seen, acc) m = (m.id :: seen, acc ++ [m]) := by
        simp [collect_step, h]
      rw [List.foldl_cons, e1, ih, List.filter_cons_of_pos (by simp [h])]
      have hf : l.filter (fun x => decide (x.id ∉ m.id :: seen)) =
          (l.filter (fun x => decide (x.id ∉ seen))).filter
            (fun x => decide (x.id ≠ m.id)) := by
        rw [List.filter_filter]
        apply List.filter_congr
        intro x hx
        by_cases h1 : x.id = m.id <;> by_cases h2 : x.id ∈ seen <;>
          simp [h1, h2, List.mem_cons]
      have hd : dedup_by_id (m :: l.filter (fun x => decide (x.id ∉ seen))) =
          m :: dedup_by_id ((l.filter (fun x => decide (x.id ∉ seen))).filter
            (fun x => decide (x.id ≠ m.id))) := by
        simp [dedup_by_id]
      rw [hd, ← hf]
      simp

theorem collect_eq (models : List Model) (qs : List String) :
    collect_matches models qs =
      dedup_by_id (qs.flatMap (fun q => search_models models q)) := by
  unfold collect_matches
  rw [collect_foldl_fusion, collect_foldl_dedup]
  simp

theorem dedup_by_id_rec (P : List Model → Prop) (h0 : P [])
    (h1 : ∀ m l, P (l.filter (fun x => decide (x.id ≠ m.id))) → P (m :: l)) :
    ∀ l, P l := by
  suffices h : ∀ n (l : List Model), l.length ≤ n → P l by
    exact fun l => h l.length l le_rfl
  intro n
  induction n with
  | zero =>
    intro l hl
    have : l = [] := List.eq_nil_of_length_eq_zero (Nat.le_zero.mp hl)
    exact this ▸ h0
  | succ n ih =>
    intro l hl
    match l with
    | [] => exact h0
    | m :: l' =>
      apply h1
      apply ih
      have := List.length_filter_le (fun x => decide (x.id ≠ m.id)) l'
      simp only [List.length_cons] at hl
      omega

theorem dedup_by_id_sublist : ∀ l, (dedup_by_id l).Sublist l := by
  apply dedup_by_id_rec
  · simp [dedup_by_id]
  · intro m l ih
    have hd : dedup_by_id (m :: l) =
        m :: dedup_by_id (l.filter (fun x => decide (x.id ≠ m.id))) := by
      simp [dedup_by_id]
    rw [hd]
    exact List.Sublist.cons₂ m (ih.trans (List.filter_sublist l))

theorem mem_dedup_by_id {x : Model} {l : List Model}
    (h : x ∈ dedup_by_id l) : x ∈ l :=
  (dedup_by_id_sublist l).subset h

theorem dedup_by_id_nodup_ids : ∀ l, ((dedup_by_id l).map Model.id).Nodup := by
  apply dedup_by_id_rec
  · simp [dedup_by_id]
  · intro m l ih
    have hd : dedup_by_id (m :: l) =
        m :: dedup_by_id (l.filter (fun x => decide (x.id ≠ m.id))) := by
      simp [dedup_by_id]
    rw [hd, List.map_cons, List.nodup_cons]
    refine ⟨?_, ih⟩
    intro hmem
    rcases List.mem_map.mp hmem with ⟨y, hy, hid⟩
    have hyl := mem_dedup_by_id hy
    have hne := (List.mem_filter.mp hyl).2
    simp at hne
    exact hne hid

theorem find?_filter_eq {α : Type} (p q : α → Bool)
    (himp : ∀ a, p a = true → q a = true) :
    ∀ l : List α, (l.filter q).find? p = l.find? p := by
  intro l
  induction l with
  | nil => rfl
  | cons a l ih =>
    by_cases hq : q a = true
    · rw [List.filter_cons_of_pos hq]
      by_cases hp : p a = true
      · rw [List.find?_cons_of_pos _ hp, List.find?_cons_of_pos _ hp]
      · rw [List.find?_cons_of_neg _ (by simpa using hp),
          List.find?_cons_of_neg _ (by simpa using hp), ih]
    · have hp : p a = false := by
        cases hpa : p a
        · rfl
        · exact absurd (himp a hpa) hq
      rw [List.filter_cons_of_neg (by simp [hq]), ih,
        List.find?_cons_of_neg _ (by simp [hp])]

theorem dedup_by_id_countP : ∀ l : List Model, ∀ m ∈ l,
    (dedup_by_id l).countP (fun x => decide (x.id = m.id)) = 1 := by
  apply dedup_by_id_rec (P := fun l => ∀ m ∈ l,
    (dedup_by_id l).countP (fun x => decide (x.id = m.id)) = 1)
  · intro m hm
    simp at hm
  · intro m l ih m' hm'
    have hd : dedup_by_id (m :: l) =
        m :: dedup_by_id (l.filter (fun x => decide (x.id ≠ m.id))) := by
      simp [dedup_by_id]
    rw [hd, List.countP_cons]
    by_cases h : m'.id = m.id
    · have hz : (dedup_by_id (l.filter (fun x => decide (x.id ≠ m.id)))).countP
          (fun x => decide (x.id = m'.id)) = 0 := by
        rw [List.countP_eq_zero]
        intro y hy
        have hne := (List.mem_filter.mp (mem_dedup_by_id hy)).2
        simp at hne ⊢
        rw [h]
        exact hne
      rw [hz]
      simp [h.symm]
    · have hm'l : m' ∈ l := by
        rcases List.mem_cons.mp hm' with h1 | h1
        · exact absurd (h1 ▸ rfl) h
        · exact h1
      have hm'f : m' ∈ l.filter (fun x => decide (x.id ≠ m.id)) :=
        List.mem_filter.mpr ⟨hm'l, by simp [h]⟩
      have hne : (m.id = m'.id) = False := by
        simp
        exact fun e => h e.symm
      rw [ih m' hm'f]
      simp [hne]

theorem dedup_by_id_find : ∀ l : List Model, ∀ x ∈ dedup_by_id l,
    l.find? (fun y => decide (y.id = x.id)) = some x := by
  apply dedup_by_id_rec (P := fun l => ∀ x ∈ dedup_by_id l,
    l.find? (fun y => decide (y.id = x.id)) = some x)
  · intro x hx
    simp [dedup_by_id] at hx
  · intro m l ih x hx
    have hd : dedup_by_id (m :: l) =
        m :: dedup_by_id (l.filter (fun y => decide (y.id ≠ m.id))) := by
      simp [dedup_by_id]
    rw [hd] at hx
    rcases List.mem_cons.mp hx with rfl | hx2
    · exact List.find?_cons_of_pos _ (by simp)
    · have hxf := mem_dedup_by_id hx2
      have hxne : x.id ≠ m.id := by
        have := (List.mem_filter.mp hxf).2
        simpa using this
      rw [List.find?_cons_of_neg _ (by simp; exact fun e => hxne e.symm)]
      rw [← find?_filter_eq (fun y => decide (y.id = x.id))
        (fun y => decide (y.id ≠ m.id)) ?_ l]
      · exact ih x hx2
      · intro a ha
        simp at ha ⊢
        rw [ha]
        exact hxne

theorem dedup_by_id_eq_self : ∀ l : List Model,
    (l.map Model.id).Nodup → dedup_by_id l = l := by
  apply dedup_by_id_rec (P := fun l => (l.map Model.id).Nodup → dedup_by_id l = l)
  · intro _
    simp [dedup_by_id]
  · intro m l ih hnd
    rw [List.map_cons, List.nodup_cons] at hnd
    have hf : l.filter (fun x => decide (x.id ≠ m.id)) = l := by
      rw [List.filter_eq_self]
      intro x hx
      simp
      intro e
      exact hnd.1 (List.mem_map.mpr ⟨x, hx, e⟩)
    have hd : dedup_by_id (m :: l) =
        m :: dedup_by_id (l.filter (fun x => decide (x.id ≠ m.id))) := by
      simp [dedup_by_id]
    rw [hf] at ih
    rw [hd, hf, ih hnd.2]

theorem data_ne_nil_of_ne_empty {s : String} (h : ¬ s = "") : s.data ≠ [] := by
  intro hd
  exact h (by cases s; simp_all)

theorem ends_with_punct_append (t s : String) (h : s.data ≠ []) :
    ends_with_punct (t ++ s) = ends_with_punct s := by
  have hrev : (t ++ s).data.reverse = s.data.reverse ++ t.data.reverse := by
    show (t.data ++ s.data).reverse = _
    simp
  cases hs : s.data.reverse with
  | nil =>
    exact absurd (by simpa using congrArg List.reverse hs) h
  | cons c L =>
    simp [ends_with_punct, hrev, hs]

theorem ends_with_punct_dot (s : String) : ends_with_punct (s ++ ".") = true := by
  have hrev : (s ++ ".").data.reverse = '.' :: s.data.reverse := by
    show (s.data ++ ['.']).reverse = _
    simp
  simp [ends_with_punct, hrev]

/-- C1: for every record list and query, `search_models` is exactly the
stable filter the spec describes: it keeps precisely the records whose
lowercased `id`, `name` or `architecture.modality` (a missing field read
as the empty string) contains the lowercased query as a substring, keeps
them with their input multiplicity, and preserves the input order (the
result is a sublist); being a total function of its arguments it raises
nothing. -/
theorem search_models_exact_filter (models : List Model) (query : String) :
    (search_models models query).Sublist models ∧
    (∀ m : Model, m ∈ search_models models query ↔ m ∈ models ∧
      (py_in (py_lower query) (py_lower (m.id.getD "")) ||
       py_in (py_lower query) (py_lower (m.name.getD "")) ||
       py_in (py_lower query) (py_lower (m.modality.getD ""))) = true) ∧
    (∀ m : Model, (search_models models query).count m =
      if (py_in (py_lower query) (py_lower (m.id.getD "")) ||
          py_in (py_lower query) (py_lower (m.name.getD "")) ||
          py_in (py_lower query) (py_lower (m.modality.getD ""))) = true
       then models.count m else 0) := by
  refine ⟨List.filter_sublist models, fun m => List.mem_filter, fun m => ?_⟩
  by_cases h : (py_in (py_lower query) (py_lower (m.id.getD "")) ||
      py_in (py_lower query) (py_lower (m.name.getD "")) ||
      py_in (py_lower query) (py_lower (m.modality.getD ""))) = true
  · rw [if_pos h]
    exact List.count_filter h
  · rw [if_neg h, List.count_eq_zero]
    intro hm
    exact h (List.mem_filter.mp hm).2

/-- C4: with no query supplied, `main` prints the usage error to the
error stream and exits with code 1 at once; `fetch_models` is not invoked
on this path (the outcome is the same whatever the fetch would have done,
and the fetch-called flag is false). -/
theorem no_query_exits_without_fetch (fetched : Except String (List Model)) :
    main_run [] fetched = ⟨1, [], [err_no_query], false⟩ := by
  cases fetched <;> rfl

/-- C8: `format_description` renders the empty description as the
placeholder line, splits on a period followed by whitespace, indents each
sentence by two spaces and re-terminates it, and on the spec's example
yields exactly two indented lines, the second gaining its period. -/
theorem format_description_c8 :
    format_description "" = "  (no description)" ∧
    format_description "First sentence. Second sentence without period" =
      "  First sentence.\n  Second sentence without period." ∧
    desc_lines "First sentence. Second sentence without period" =
      ["  First sentence.", "  Second sentence without period."] ∧
    (∀ desc line, line ∈ desc_lines desc →
      (∃ s2, line = "  " ++ s2) ∧ ends_with_punct line = true) := by
  refine ⟨by decide, by decide, by decide, ?_⟩
  intro desc line hline
  rcases List.mem_filterMap.mp hline with ⟨a, _, hf⟩
  by_cases h : py_strip a = ""
  · simp [h] at hf
  · rw [if_neg h] at hf
    injection hf with hf
    subst hf
    constructor
    · exact ⟨_, rfl⟩
    · by_cases hp : ends_with_punct (py_strip a) = true
      · rw [if_pos hp, ends_with_punct_append _ _ (data_ne_nil_of_ne_empty h)]
        exact hp
      · rw [if_neg hp]
        rw [ends_with_punct_append]
        · exact ends_with_punct_dot _
        · show (py_strip a).data ++ ['.'] ≠ []
          simp

/-- C2: a single query equal to some record's `id` (the first such record,
as `find?` locates it) renders the detailed view of that record and exits
with code 0 — no assumption is made about other records, so this holds
even when the query also substring-matches them; and with two or more
queries the run is definitionally the multi-query fall-through, so no
exact-ID shortcut is taken there. -/
theorem exact_id_shortcut (models : List Model) (q : String) (m : Model)
    (h : models.find? (fun x => x.id == some q) = some m) :
    main_run [q] (.ok models) = ⟨0, (print_full_model_run m).1, [], true⟩ ∧
    ∀ (models2 : List Model) (a b : String) (rest : List String),
      main_run (a :: b :: rest) (.ok models2) =
        multi_query models2 (a :: b :: rest) := by
  constructor
  · simp [main_run, h]
  · intro models2 a b rest
    rfl

theorem exact_id_shortcut_witness :
    main_run ["gpt"] (.ok
      [{ id := some "gpt", name := some "full gpt model" },
       { id := some "other", name := some "also gpt here" }]) =
      ⟨0, (print_full_model_run
        { id := some "gpt", name := some "full gpt model" }).1, [], true⟩ ∧
    main_run ["a", "b"] (.ok ([] : List Model)) = multi_query [] ["a", "b"] := by
  constructor
  · exact (exact_id_shortcut
      [{ id := some "gpt", name := some "full gpt model" },
       { id := some "other", name := some "also gpt here" }] "gpt"
      { id := some "gpt", name := some "full gpt model" } (by decide)).1
  · exact (exact_id_shortcut [{ id := some "gpt" }] "gpt"
      { id := some "gpt" } (by decide)).2 [] "a" "b" []

/-- C5: when the fetch succeeded, at least one query was supplied, no
single-query exact-ID match occurred, and the collected matches are empty,
`main` exits with code 1 and the error stream carries the message naming
every supplied query. -/
theorem no_match_exit (models : List Model) (qs : List String)
    (hne : qs ≠ [])
    (hexact : ∀ q, qs = [q] → models.find? (fun x => x.id == some q) = none)
    (hempty : collect_matches models qs = []) :
    main_run qs (.ok models) = ⟨1, [], [no_match_msg qs], true⟩ := by
  rcases qs with _ | ⟨q, rest⟩
  · exact absurd rfl hne
  · rcases rest with _ | ⟨b, rest2⟩
    · have h := hexact q rfl
      simp [main_run, h, multi_query, hempty]
    · simp [main_run, multi_query, hempty]

theorem no_match_exit_witness :
    main_run ["zz", "ww"] (.ok [{ id := some "alpha" }]) =
      ⟨1, [], [no_match_msg ["zz", "ww"]], true⟩ := by
  apply no_match_exit
  · decide
  · intro q hq
    simp at hq
  · decide

/-- C9: nothing mutates a fetched record: search results are a sublist of
the input records themselves (the very same values, in order), every
collected match is one of the input records, and the detailed view —
whose pops act on the `model.copy()` state threaded through
`print_full_model_run` — hands the caller's record back unchanged.
Table rendering (`print_comparison_table`) only reads the records. -/
theorem no_mutation (models : List Model) (q : String)
    (qs : List String) (m : Model) :
    (search_models models q).Sublist models ∧
    (m ∈ collect_matches models qs → m ∈ models) ∧
    (print_full_model_run m).2 = m := by
  refine ⟨List.filter_sublist models, ?_, rfl⟩
  intro h
  rw [collect_eq] at h
  rcases List.mem_flatMap.mp (mem_dedup_by_id h) with ⟨q2, _, hm⟩
  exact (List.mem_filter.mp hm).1

theorem no_mutation_witness :
    (search_models [{ id := some "a1" }] "a").Sublist [{ id := some "a1" }] ∧
    ({ id := some "a1" } : Model) ∈ [({ id := some "a1" } : Model)] ∧
    (print_full_model_run { id := some "a1" }).2 = { id := some "a1" } :=
  ⟨(no_mutation [{ id := some "a1" }] "a" ["a"] { id := some "a1" }).1,
   (no_mutation [{ id := some "a1" }] "a" ["a"] { id := some "a1" }).2.1 (by decide),
   (no_mutation [{ id := some "a1" }] "a" ["a"] { id := some "a1" }).2.2⟩

/-- C3: the collected result of several queries equals the first-occurrence
deduplication by `id` of the concatenated per-query search results: it is a
sublist of that concatenation (first-seen order across queries in supplied
order), its ids are pairwise distinct, every matched record is represented
exactly once (counting by id), and each kept record is precisely the first
occurrence of its id in the concatenation. -/
theorem union_dedup_by_id (models : List Model) (qs : List String) :
    collect_matches models qs =
      dedup_by_id (qs.flatMap (fun q => search_models models q)) ∧
    (collect_matches models qs).Sublist
      (qs.flatMap (fun q => search_models models q)) ∧
    ((collect_matches models qs).map Model.id).Nodup ∧
    (∀ m ∈ qs.flatMap (fun q => search_models models q),
      (collect_matches models qs).countP (fun x => decide (x.id = m.id)) = 1) ∧
    (∀ x ∈ collect_matches models qs,
      (qs.flatMap (fun q => search_models models q)).find?
        (fun y => decide (y.id = x.id)) = some x) := by
  have hc := collect_eq models qs
  refine ⟨hc, ?_, ?_, ?_, ?_⟩
  · rw [hc]
    exact dedup_by_id_sublist _
  · rw [hc]
    exact dedup_by_id_nodup_ids _
  · intro m hm
    rw [hc]
    exact dedup_by_id_countP _ m hm
  · intro x hx
    rw [hc] at hx
    exact dedup_by_id_find _ x hx

theorem union_dedup_by_id_witness :
    (collect_matches
        [{ id := some "a", name := some "claude x" },
         { id := some "b", name := some "claude-3 y" }]
        ["claude", "claude-3"]).countP
      (fun x => decide (x.id = ({ id := some "b", name := some "claude-3 y" } : Model).id)) = 1 ∧
    (["claude", "claude-3"].flatMap (fun q => search_models
        [{ id := some "a", name := some "claude x" },
         { id := some "b", name := some "claude-3 y" }] q)).find?
      (fun y => decide (y.id = ({ id := some "b", name := some "claude-3 y" } : Model).id)) =
      some { id := some "b", name := some "claude-3 y" } :=
  ⟨(union_dedup_by_id
      [{ id := some "a", name := some "claude x" },
       { id := some "b", name := some "claude-3 y" }]
      ["claude", "claude-3"]).2.2.2.1
    { id := some "b", name := some "claude-3 y" } (by decide),
   (union_dedup_by_id
      [{ id := some "a", name := some "claude x" },
       { id := some "b", name := some "claude-3 y" }]
      ["claude", "claude-3"]).2.2.2.2
    { id := some "b", name := some "claude-3 y" } (by decide)⟩

theorem py_in_empty (hay : String) : py_in "" hay = true := occursIn_nil hay.data

theorem search_empty_query (models : List Model) :
    search_models models "" = models := by
  show models.filter _ = models
  rw [List.filter_eq_self]
  intro m _
  have h0 : py_lower "" = "" := rfl
  simp [h0, py_in_empty]

/-- C10 (amended): the empty-string query matches every record, so
`search_models models "" = models` unconditionally; and provided the
catalog is nonempty, record ids are pairwise distinct (as the data-model
invariant assumes), no record's id is the empty string, and every row of
the catalog formats without an escaping exception (the table render
succeeds — otherwise the uncaught `OverflowError` of the C6 bug kills the
run mid-render), the run with the single empty query renders the count
summary and the comparison table of the whole catalog and exits 0.
(Without the distinctness proviso the dedup step drops later records
sharing an id, see the counterexample.) -/
theorem empty_query_returns_all (models : List Model) :
    search_models models "" = models ∧
    (∀ tbl : String, models ≠ [] → (models.map Model.id).Nodup →
      (∀ m ∈ models, ¬ m.id = some "") →
      print_comparison_table models = .ok tbl →
      main_run [""] (.ok models) =
        ⟨0, [found_msg models.length [""], tbl], [], true⟩) := by
  refine ⟨search_empty_query models, ?_⟩
  intro tbl hne hnd hid htbl
  have hfind : models.find? (fun m => m.id == some "") = none := by
    rw [List.find?_eq_none]
    intro x hx
    simpa using hid x hx
  have hcol : collect_matches models [""] = models := by
    rw [collect_eq]
    have hflat : ([""] : List String).flatMap (fun q => search_models models q)
        = models := by
      simp [search_empty_query]
    rw [hflat]
    exact dedup_by_id_eq_self models hnd
  simp [main_run, hfind, multi_query, hcol, hne, htbl]

set_option maxRecDepth 4096 in
theorem empty_query_returns_all_witness :
    search_models [{ id := some "m1" }, { id := some "m2" }] "" =
      [{ id := some "m1" }, { id := some "m2" }] ∧
    main_run [""] (.ok [{ id := some "m1" }, { id := some "m2" }]) =
      ⟨0, [found_msg 2 [""],
           (print_comparison_table
             [{ id := some "m1" }, { id := some "m2" }]).toOption.getD ""],
        [], true⟩ :=
  ⟨(empty_query_returns_all [{ id := some "m1" }, { id := some "m2" }]).1,
   (empty_query_returns_all [{ id := some "m1" }, { id := some "m2" }]).2
     ((print_comparison_table
       [{ id := some "m1" }, { id := some "m2" }]).toOption.getD "")
     (by decide) (by decide) (by decide) (by decide)⟩

set_option maxRecDepth 4096 in
/-- C10 counterexample: with two distinct records sharing the id `x`, the
single empty query renders a one-row table — the summary says one model
and only the first record's row is shown — so the table is not the whole
two-record catalog. -/
theorem empty_query_counterexample :
    main_run [""] (.ok [{ id := some "x", name := some "A" },
        { id := some "x", name := some "B" }]) =
      ⟨0, [found_msg 1 [""],
           (print_comparison_table
             [{ id := some "x", name := some "A" }]).toOption.getD ""],
        [], true⟩ ∧
    (print_comparison_table [{ id := some "x", name := some "A" }]).toOption.getD "" ≠
      (print_comparison_table [{ id := some "x", name := some "A" },
        { id := some "x", name := some "B" }]).toOption.getD "" := by
  constructor
  · decide
  · decide

/-- C6 (code bug): the formatters' `except` clauses miss `OverflowError`,
so an out-of-range input escapes instead of yielding the sentinel: a huge
integer under `float()` in the price formatter, a timestamp beyond the
64-bit `time_t` range in the timestamp formatter, and an infinite float
under `int()` in the token formatter.  The sentinel cases the claim also
names (missing, empty, zero, non-numeric) do behave as stated. -/
theorem formatter_overflow_escapes :
    format_price_dollars (.vInt (ipow 10 400)) = .error .overflowError ∧
    format_timestamp (.vInt (ipow 2 63)) = .error .overflowError ∧
    format_tokens (.vFloat .inf) = .error .overflowError ∧
    format_price_dollars (.vStr "") = .ok "N/A" ∧
    format_price_dollars .vNone = .ok "N/A" ∧
    format_timestamp (.vInt 0) = .ok "N/A" ∧
    format_timestamp .vNone = .ok "N/A" ∧
    format_tokens (.vStr "abc") = .ok "N/A" := by
  refine ⟨?_, ?_, ?_, ?_, ?_, ?_, ?_, ?_⟩ <;> decide

/-- C7 counterexample: the string input `1e999` is accepted by `float()`
(overflowing to infinity, not raising), is not falsy, and renders as
`$inf` — a successful, non-sentinel result without two decimal places and
without the claimed two-decimal shape. -/
theorem price_format_counterexample :
    format_price_scaled (pr 1000000 1) (.vStr "1e999") = .ok "$inf" ∧
    is_two_dec "$inf" = false ∧
    "$inf" ≠ "N/A" := by
  refine ⟨by decide, by decide, by decide⟩

/-- C7 (amended): under the 1,000,000 scale the input `0.00000025` renders
as `$0.25` and under the 100,000,000 scale as `$25.00` (the scale being
the configuration parameter of `format_price_scaled`); empty or missing
input yields the sentinel for every scale; every successful result is the
currency symbol followed by exactly two decimal places whenever the
scaled value is finite; and when the parsed value or the scaled product
is an infinity or NaN the result is the currency symbol followed by the
bare word (`$inf` / `$nan`), with no decimal places — exercised by
`1e999` (parses to infinity outright) and by `1e305` (parses finite but
overflows to infinity under the source's hard-coded 1,000,000 scale). -/
theorem price_format_amended :
    format_price_scaled (pr 1000000 1) (.vStr "0.00000025") = .ok "$0.25" ∧
    format_price_scaled (pr 100000000 1) (.vStr "0.00000025") = .ok "$25.00" ∧
    (∀ scale : PRat, format_price_scaled scale (.vStr "") = .ok "N/A" ∧
      format_price_scaled scale .vNone = .ok "N/A") ∧
    (∀ (scale : PRat) (v : PyVal) (q : PRat),
      py_falsy v = false → py_float v = .ok (.finite q) →
      pr_le dbl_max (pr_mul q scale) = false →
      pr_le (pr_mul q scale) (pr_neg dbl_max) = false →
      format_price_scaled scale v = .ok ("$" ++ py_fix2 (pr_mul q scale)) ∧
      is_two_dec ("$" ++ py_fix2 (pr_mul q scale)) = true) ∧
    (∀ (scale : PRat) (v : PyVal) (q : PRat),
      py_falsy v = false → py_float v = .ok (.finite q) →
      pr_le dbl_max (pr_mul q scale) = true →
      format_price_scaled scale v = .ok "$inf") ∧
    (∀ (scale : PRat) (v : PyVal),
      py_falsy v = false → py_float v = .ok .inf →
      pr_lt (pr 0 1) scale = true →
      format_price_scaled scale v = .ok "$inf") ∧
    (∀ (scale : PRat) (v : PyVal),
      py_falsy v = false → py_float v = .ok .nan →
      format_price_scaled scale v = .ok "$nan") ∧
    format_price_dollars (.vStr "1e305") = .ok "$inf" ∧
    format_price_dollars (.vStr "1e999") = .ok "$inf" := by
  refine ⟨by decide, by decide, fun scale => ⟨rfl, rfl⟩, ?_, ?_, ?_, ?_,
    by decide, by decide⟩
  · intro scale v q hfal hfl hhi hlo
    have hps : pyf_scale (.finite q) scale = .finite (pr_mul q scale) := by
      simp only [pyf_scale]
      rw [hhi, hlo]
      simp
    constructor
    · simp only [format_price_scaled, hfal]
      rw [hfl]
      simp only [hps]
      rfl
    · exact is_two_dec_fix2 _
  · intro scale v q hfal hfl hhi
    have hps : pyf_scale (.finite q) scale = .inf := by
      simp only [pyf_scale]
      rw [hhi]
      simp
    simp only [format_price_scaled, hfal]
    rw [hfl]
    simp only [hps]
    rfl
  · intro scale v hfal hfl hpos
    have hps : pyf_scale .inf scale = .inf := by
      simp only [pyf_scale]
      rw [hpos]
      simp
    simp only [format_price_scaled, hfal]
    rw [hfl]
    simp only [hps]
    rfl
  · intro scale v hfal hfl
    simp only [format_price_scaled, hfal]
    rw [hfl]
    rfl

theorem price_format_amended_witness :
    (format_price_scaled (pr 1000000 1) (.vStr "0.00000025") =
      .ok ("$" ++ py_fix2 (pr_mul (pr 1 4000000) (pr 1000000 1))) ∧
     is_two_dec ("$" ++ py_fix2 (pr_mul (pr 1 4000000) (pr 1000000 1))) = true) ∧
    format_price_scaled (pr 1000000 1) (.vStr "1e305") = .ok "$inf" :=
  ⟨price_format_amended.2.2.2.1 (pr 1000000 1) (.vStr "0.00000025")
     (pr 1 4000000) (by decide) (by decide) (by decide) (by decide),
   price_format_amended.2.2.2.2.1 (pr 1000000 1) (.vStr "1e305")
     (pr (ipow 10 305) 1) (by decide) (by decide) (by decide)⟩

theorem format_description_c8_witness :
    (∃ s2, "  Second sentence without period." = "  " ++ s2) ∧
    ends_with_punct "  Second sentence without period." = true :=
  format_description_c8.2.2.2 "First sentence. Second sentence without period"
    "  Second sentence without period." (by decide)
